import Mathlib

/-!
Verification of the ledger core of the `Blockchain` repository (Rust sources
under `src/dmbc/src/currency/...` and `src/src/service/assetid.rs`).

The transaction handlers (`AddAssets`, `Exchange`, `ExchangeIntermediary`) and
the hex asset-identifier codec are shallowly embedded as executable Lean
functions.  Machine integers (`u64`, `u8`) are modelled as `Nat`: every
arithmetic operation performed by the embedded code paths either checks for
underflow explicitly (`move_coins`, `move_assets`) or only adds, so no `u64`
wrap-around can occur on the modelled paths.  The transactional store fork is
modelled as a record of total maps; panics (`unwrap` / `expect` /
`unimplemented!`) are modelled by returning `none` from an `Option`-valued
entry point.

Modules of the repository that the claims depend on but whose sources are not
part of the corpus (the `currency::wallet` transfer primitives, the
`currency::transactions::components` fee machinery, `AssetId::from_data` and
`AssetInfo::merge`) are modelled from the specification; each such definition
carries a doc comment starting with `Modelled from the spec:`.
-/

/-- Error kinds of `currency::error::Error`.  Modelled from the spec:
the error enum itself is not under `src/`; section 7 of the spec lists
`InsufficientFunds`, `InsufficientAssets`, `AssetNotFound`,
`InvalidTransaction` and a creator/fee-schedule mismatch on asset-registry
merge (here `invalidAssetInfo`). -/
inductive TxError where
  | insufficientFunds
  | insufficientAssets
  | assetNotFound
  | invalidTransaction
  | invalidAssetInfo
deriving DecidableEq

/-- Modelled from the spec: `AssetId` (currency/assets/asset_id.rs is not under
`src/`) is a fixed-size value deterministically derived from a public key and
an opaque data string via a one-way hash.  The hash is idealized as the
injective pair of its two inputs, i.e. it is assumed collision-free; public
keys are opaque and modelled as `Nat`. -/
structure AssetId where
  data : String
  key : Nat
deriving DecidableEq

/-- Modelled from the spec: hash-based derivation of an asset identifier from
a data string and a public key (`AssetId::from_data`). -/
def AssetId.from_data (data : String) (key : Nat) : AssetId :=
  { data := data, key := key }

/-- An (identifier, amount) pair; `currency/assets/asset_bundle.rs`. -/
structure AssetBundle where
  id : AssetId
  amount : Nat
deriving DecidableEq

/-- From `src/dmbc/src/currency/assets/asset_bundle.rs`: build a bundle whose
id is derived from the data string and the given public key. -/
def AssetBundle.from_data (data : String) (amount : Nat) (pub_key : Nat) : AssetBundle :=
  { id := AssetId.from_data data pub_key, amount := amount }

/-- Modelled from the spec: an asset-registry entry (`AssetInfo`, not under
`src/`): issuing creator, total amount in circulation, and a fee schedule.
The fee schedule is reduced to the per-unit tax rate paid to the creator,
which is the only part the embedded code paths consume. -/
structure AssetInfo where
  creator : Nat
  amount : Nat
  fees : Nat
deriving DecidableEq

/-- Modelled from the spec: merging a re-issuance into an existing registry
entry increases the amount; a mismatched creator or fee schedule is a hard
failure, not silently overwritten. -/
def AssetInfo.merge (a b : AssetInfo) : Except TxError AssetInfo :=
  if a.creator = b.creator ∧ a.fees = b.fees then
    .ok { a with amount := a.amount + b.amount }
  else
    .error .invalidAssetInfo

/-- Modelled from the spec: a `MetaAsset` of an `AddAssets` transaction:
opaque data string, issued amount, receiver wallet and the declared fee
schedule (reduced to the tax rate). -/
structure MetaAsset where
  data : String
  amount : Nat
  receiver : Nat
  fees : Nat
deriving DecidableEq

/-- Modelled from the spec: `MetaAsset::to_info` builds the registry entry for
this issuance, recording the given key as creator. -/
def MetaAsset.toInfo (m : MetaAsset) (key : Nat) : AssetInfo :=
  { creator := key, amount := m.amount, fees := m.fees }

/-- Modelled from the spec: `MetaAsset::to_bundle` pairs the derived id with
the issued amount. -/
def MetaAsset.toBundle (m : MetaAsset) (id : AssetId) : AssetBundle :=
  { id := id, amount := m.amount }

/-- Modelled from the spec: structural well-formedness of a meta asset
(`MetaAsset::verify`, not under `src/`): asset amounts that represent an
intent to move or issue must be strictly positive. -/
def MetaAsset.verify (m : MetaAsset) : Bool :=
  decide (0 < m.amount)

/-- An account: balance plus asset holdings (asset id to owned amount,
keys unique). -/
structure Wallet where
  balance : Nat
  assets : List (AssetId × Nat)
deriving DecidableEq

/-- Modelled from the spec: add `n` to the holding of `id` in an asset list,
creating the entry at the end when absent. -/
def addAmount : List (AssetId × Nat) → AssetId → Nat → List (AssetId × Nat)
  | [], id, n => [(id, n)]
  | (i, a) :: rest, id, n =>
    if i = id then (i, a + n) :: rest else (i, a) :: addAmount rest id n

/-- Modelled from the spec: subtract `n` from the holding of `id`, removing
the entry when it reaches zero; `none` when the holding is insufficient. -/
def subAmount : List (AssetId × Nat) → AssetId → Nat → Option (List (AssetId × Nat))
  | [], _, n => if n = 0 then some [] else none
  | (i, a) :: rest, id, n =>
    if i = id then
      if n ≤ a then
        if a - n = 0 then some rest else some ((i, a - n) :: rest)
      else none
    else (subAmount rest id n).map (fun l => (i, a) :: l)

/-- Modelled from the spec: `wallet::move_coins(from, to, amount)` fails with
`InsufficientFunds` when the source balance is smaller than the amount, and
otherwise returns the two mutated in-memory copies; it performs no store
I/O itself. -/
def move_coins (source target : Wallet) (amount : Nat) : Except TxError (Wallet × Wallet) :=
  if source.balance < amount then .error .insufficientFunds
  else .ok ({ source with balance := source.balance - amount },
            { target with balance := target.balance + amount })

/-- Modelled from the spec: `wallet::move_assets(from, to, bundles)` moves each
bundle, failing with `InsufficientAssets` when the source does not hold at
least the bundle amount; all-or-nothing per call (the caller only observes
the fully-updated pair or the error). -/
def move_assets (source target : Wallet) : List AssetBundle → Except TxError (Wallet × Wallet)
  | [] => .ok (source, target)
  | b :: rest =>
    match subAmount source.assets b.id b.amount with
    | none => .error .insufficientAssets
    | some srcAssets =>
      move_assets { source with assets := srcAssets }
                  { target with assets := addAmount target.assets b.id b.amount } rest

/-- Modelled from the spec: `Wallet::push_assets` credits a list of bundles to
the wallet, creating or increasing holdings. -/
def Wallet.pushAssets (w : Wallet) (l : List AssetBundle) : Wallet :=
  { w with assets := l.foldl (fun a b => addAmount a b.id b.amount) w.assets }

/-- Network-wide configuration snapshot: Treasury/genesis wallet identity and
the per-transaction-type flat fees the embedded handlers read
(`Configuration::extract(view).fees()`, `Service::genesis_wallet()`). -/
structure Config where
  genesisKey : Nat
  exchangeFee : Nat
  addAssetsFee : Nat
  perAssetFee : Nat
deriving DecidableEq

/-- The store fork handed to `execute`: wallets keyed by public key (a wallet
is created implicitly, so a missing key reads as its current default value),
the asset registry keyed by asset id, the execution-status map keyed by
transaction hash, and the immutable configuration snapshot. -/
structure Fork where
  wallets : Nat → Wallet
  infos : AssetId → Option AssetInfo
  statuses : Nat → Option (Except TxError Unit)
  config : Config

/-- Write a wallet back to the fork (`wallet::Schema::store`). -/
def Fork.storeWallet (s : Fork) (k : Nat) (w : Wallet) : Fork :=
  { s with wallets := fun k2 => if k2 = k then w else s.wallets k2 }

/-- Write a registry entry to the fork (`asset::Schema::store`). -/
def Fork.storeInfo (s : Fork) (id : AssetId) (info : AssetInfo) : Fork :=
  { s with infos := fun i2 => if i2 = id then some info else s.infos i2 }

/-- Write the execution status for a transaction hash
(`status::Schema::store`); re-execution overwrites. -/
def Fork.storeStatus (s : Fork) (h : Nat) (r : Except TxError Unit) : Fork :=
  { s with statuses := fun h2 => if h2 = h then some r else s.statuses h2 }

theorem Fork.storeWallet_wallets (s : Fork) (k : Nat) (w : Wallet) (k2 : Nat) :
    (s.storeWallet k w).wallets k2 = if k2 = k then w else s.wallets k2 := rfl

theorem Fork.storeWallet_infos (s : Fork) (k : Nat) (w : Wallet) :
    (s.storeWallet k w).infos = s.infos := rfl

theorem Fork.storeWallet_statuses (s : Fork) (k : Nat) (w : Wallet) :
    (s.storeWallet k w).statuses = s.statuses := rfl

theorem Fork.storeWallet_config (s : Fork) (k : Nat) (w : Wallet) :
    (s.storeWallet k w).config = s.config := rfl

theorem move_coins_ok {source target : Wallet} {amount : Nat} {p : Wallet × Wallet}
    (h : move_coins source target amount = .ok p) :
    p.1.assets = source.assets ∧ p.2.assets = target.assets ∧
    p.1.balance = source.balance - amount ∧ p.2.balance = target.balance + amount := by
  unfold move_coins at h
  split at h
  · exact absurd h (by simp)
  · cases h
    exact ⟨rfl, rfl, rfl, rfl⟩

theorem move_coins_error {source target : Wallet} {amount : Nat} {e : TxError}
    (h : move_coins source target amount = .error e) :
    source.balance < amount ∧ e = .insufficientFunds := by
  unfold move_coins at h
  split at h
  · cases h
    exact ⟨by assumption, rfl⟩
  · exact absurd h (by simp)

theorem move_coins_of_le {source target : Wallet} {amount : Nat}
    (h : amount ≤ source.balance) :
    move_coins source target amount =
      .ok ({ source with balance := source.balance - amount },
           { target with balance := target.balance + amount }) := by
  unfold move_coins
  rw [if_neg (Nat.not_lt.mpr h)]

/-- Fee-strategy enumeration (`currency::transactions::components::FeeStrategy`).
The variant names follow the match arms visible in
`src/dmbc/src/currency/transactions/exchange.rs`. -/
inductive FeeStrategy where
  | recipient
  | sender
  | recipientAndSender
  | intermediary
deriving DecidableEq

/-- Modelled from the spec: `FeeStrategy::try_from(u8)` (components module, not
under `src/`) decodes the transaction-level strategy byte and fails on any
other value; the concrete numbering (1..4, with 1 a valid two-party strategy
as in the legacy test suite) is a modelling choice, the claims only rely on
invalid bytes existing — which the `expect("fee strategy must be valid")`
call in `exchange.rs` presupposes. -/
def FeeStrategy.tryFrom : Nat → Option FeeStrategy
  | 1 => some .recipient
  | 2 => some .sender
  | 3 => some .recipientAndSender
  | 4 => some .intermediary
  | _ => none

/-- The doubly-signed offer payload of an `Exchange`
(`encoding_struct! ExchangeOffer` in exchange.rs). -/
structure ExchangeOffer where
  sender : Nat
  senderAssets : List AssetBundle
  senderValue : Nat
  recipient : Nat
  recipientAssets : List AssetBundle
  feeStrategy : Nat
deriving DecidableEq

/-- The signed body of an `Exchange` message (`message! Exchange` in
exchange.rs): offer, seed, the sender's detached signature over the offer
bytes, and the data-info string.  Signatures are idealized as the pair of
the signed payload and the signing key, so signature verification is
equality with that pair. -/
structure ExchangeBody where
  offer : ExchangeOffer
  seed : Nat
  senderSignature : ExchangeOffer × Nat
  dataInfo : String
deriving DecidableEq

/-- A full `Exchange` transaction: body, the enclosing message signature
(checked against the recipient by `verify_signature`), and the message hash
(an opaque capability, carried as a field). -/
structure Exchange where
  body : ExchangeBody
  envelopeSig : ExchangeBody × Nat
  hash : Nat
deriving DecidableEq

/-- Modelled from the spec: `ThirdPartyFees::new_exchange` computes, purely
from the registry state, the per-creator tax for each asset bundle touched
by the exchange; an asset absent from the registry is an `AssetNotFound`
error (behaviour pinned down by the `fees_for_transfer_asset_not_found`
test under `src/dmbc/tests/`). -/
def ThirdPartyFees.newExchange (s : Fork) : List AssetBundle → Except TxError (List (Nat × Nat))
  | [] => .ok []
  | b :: rest =>
    match s.infos b.id with
    | none => .error .assetNotFound
    | some info =>
      match ThirdPartyFees.newExchange s rest with
      | .error e => .error e
      | .ok l => .ok ((info.creator, info.fees * b.amount) :: l)

/-- Look up a wallet in the in-memory updated-wallets map. -/
def lookupW : List (Nat × Wallet) → Nat → Option Wallet
  | [], _ => none
  | (k, w) :: rest, key => if k = key then some w else lookupW rest key

/-- Insert or replace a wallet in the in-memory updated-wallets map. -/
def putW : List (Nat × Wallet) → Nat → Wallet → List (Nat × Wallet)
  | [], key, w => [(key, w)]
  | (k, w0) :: rest, key, w =>
    if k = key then (k, w) :: rest else (k, w0) :: putW rest key w

/-- Remove a wallet from the in-memory updated-wallets map. -/
def removeW : List (Nat × Wallet) → Nat → List (Nat × Wallet)
  | [], _ => []
  | (k, w0) :: rest, key =>
    if k = key then rest else (k, w0) :: removeW rest key

/-- HashMap `remove` followed by `unwrap_or_else(|| fetch from view)`: take a
wallet out of the updated map, falling back to the fork. -/
def takeWallet (uw : List (Nat × Wallet)) (s : Fork) (k : Nat) : Wallet × List (Nat × Wallet) :=
  match lookupW uw k with
  | some w => (w, removeW uw k)
  | none => (s.wallets k, uw)

/-- Modelled from the spec: `ThirdPartyFees::collect(view, payer)` debits each
per-asset tax from the payer and credits the asset creator, reading wallets
from the accumulated in-memory map first and the fork second, failing with
`InsufficientFunds` when the payer cannot pay; it stores nothing, returning
the map of updated wallets. -/
def ThirdPartyFees.collect (s : Fork) (payer : Nat) :
    List (Nat × Nat) → List (Nat × Wallet) → Except TxError (List (Nat × Wallet))
  | [], uw => .ok uw
  | (creator, fee) :: rest, uw =>
    let payerW := (lookupW uw payer).getD (s.wallets payer)
    if payerW.balance < fee then .error .insufficientFunds
    else
      let uw1 := putW uw payer { payerW with balance := payerW.balance - fee }
      let creW := (lookupW uw1 creator).getD (s.wallets creator)
      ThirdPartyFees.collect s payer rest
        (putW uw1 creator { creW with balance := creW.balance + fee })

/-- Modelled from the spec: `ThirdPartyFees::collect2(view, sender, recipient)`
splits each per-asset tax, the recipient paying the rounded-down half and
the sender the remainder half. -/
def ThirdPartyFees.collect2 (s : Fork) (sender recipient : Nat) :
    List (Nat × Nat) → List (Nat × Wallet) → Except TxError (List (Nat × Wallet))
  | [], uw => .ok uw
  | (creator, fee) :: rest, uw =>
    let rW := (lookupW uw recipient).getD (s.wallets recipient)
    if rW.balance < fee / 2 then .error .insufficientFunds
    else
      let uw1 := putW uw recipient { rW with balance := rW.balance - fee / 2 }
      let sW := (lookupW uw1 sender).getD (s.wallets sender)
      if sW.balance < fee - fee / 2 then .error .insufficientFunds
      else
        let uw2 := putW uw1 sender { sW with balance := sW.balance - (fee - fee / 2) }
        let cW := (lookupW uw2 creator).getD (s.wallets creator)
        ThirdPartyFees.collect2 s sender recipient rest
          (putW uw2 creator { cW with balance := cW.balance + fee })

/-- Store every wallet of the updated map back to the fork (the final
`for (key, wallet) in updated_wallets` loop; keys are unique, so the
iteration order of the Rust HashMap does not affect the result). -/
def Fork.storeWallets (s : Fork) (uw : List (Nat × Wallet)) : Fork :=
  uw.foldl (fun acc kw => acc.storeWallet kw.1 kw.2) s

/-- Flat-fee collection phase of `Exchange::process` (exchange.rs lines
65-96): fetch the genesis wallet, debit the strategy-designated payer(s) by
the configured exchange fee (each half for the split strategy), store the
payer wallet(s) and finally the genesis wallet; any failed `move_coins`
aborts before anything is stored. -/
def Exchange.feePhase (offer : ExchangeOffer) (fs : FeeStrategy) (s : Fork) : Except TxError Fork :=
  let gk := s.config.genesisKey
  let fee := s.config.exchangeFee
  let genesis0 := s.wallets gk
  match fs with
  | .recipient =>
    match move_coins (s.wallets offer.recipient) genesis0 fee with
    | .error e => .error e
    | .ok (r1, g1) => .ok (((s.storeWallet offer.recipient r1).storeWallet gk g1))
  | .sender =>
    match move_coins (s.wallets offer.sender) genesis0 fee with
    | .error e => .error e
    | .ok (s1, g1) => .ok (((s.storeWallet offer.sender s1).storeWallet gk g1))
  | .recipientAndSender =>
    match move_coins (s.wallets offer.recipient) genesis0 (fee / 2) with
    | .error e => .error e
    | .ok (r1, g1) =>
      match move_coins (s.wallets offer.sender) g1 (fee / 2) with
      | .error e => .error e
      | .ok (s1, g2) =>
        .ok ((((s.storeWallet offer.sender s1).storeWallet offer.recipient r1).storeWallet gk g2))
  | .intermediary => .error .invalidTransaction

/-- Principal phase of `Exchange::process` (exchange.rs lines 117-137): take
the two parties out of the updated-wallets map (falling back to the fork),
move the offered value and both directions of asset bundles, put the
results back into the map and store every wallet of the map; any error
leaves the fork as it was after the fee phase. -/
def Exchange.principal (offer : ExchangeOffer) (s2 : Fork) (uw : List (Nat × Wallet)) :
    Except TxError Unit × Fork :=
  let p1 := takeWallet uw s2 offer.sender
  let p2 := takeWallet p1.2 s2 offer.recipient
  match move_coins p1.1 p2.1 offer.senderValue with
  | .error e => (.error e, s2)
  | .ok (sd1, rc1) =>
    match move_assets sd1 rc1 offer.senderAssets with
    | .error e => (.error e, s2)
    | .ok (sd2, rc2) =>
      match move_assets rc2 sd2 offer.recipientAssets with
      | .error e => (.error e, s2)
      | .ok (rc3, sd3) =>
        (.ok (), s2.storeWallets (putW (putW p2.2 offer.sender sd3) offer.recipient rc3))

/-- Third-party-fee and principal phases of `Exchange::process` (lines
98-137): compute the per-creator taxes for the union of both parties'
bundles, collect them with the strategy-selected collector, then run the
principal phase; every error returns the fee-phase fork unchanged. -/
def Exchange.phase2 (offer : ExchangeOffer) (s2 : Fork)
    (collector : List (Nat × Nat) → Except TxError (List (Nat × Wallet))) :
    Except TxError Unit × Fork :=
  match ThirdPartyFees.newExchange s2 (offer.senderAssets ++ offer.recipientAssets) with
  | .error e => (.error e, s2)
  | .ok fees =>
    match collector fees with
    | .error e => (.error e, s2)
    | .ok uw => Exchange.principal offer s2 uw

/-- `Exchange::process` (exchange.rs lines 55-138).  The
`FeeStrategy::try_from(..).expect(..)` call panics on an invalid strategy
byte, modelled as `none`; the `Intermediary` strategy returns
`InvalidTransaction` before anything is stored. -/
def Exchange.process (tx : Exchange) (s : Fork) : Option (Except TxError Unit × Fork) :=
  let offer := tx.body.offer
  match FeeStrategy.tryFrom offer.feeStrategy with
  | none => none
  | some fs =>
    some (match fs with
      | .intermediary => (.error .invalidTransaction, s)
      | .recipient =>
        match Exchange.feePhase offer .recipient s with
        | .error e => (.error e, s)
        | .ok s2 =>
          Exchange.phase2 offer s2 (fun fees => ThirdPartyFees.collect s2 offer.recipient fees [])
      | .sender =>
        match Exchange.feePhase offer .sender s with
        | .error e => (.error e, s)
        | .ok s2 =>
          Exchange.phase2 offer s2 (fun fees => ThirdPartyFees.collect s2 offer.sender fees [])
      | .recipientAndSender =>
        match Exchange.feePhase offer .recipientAndSender s with
        | .error e => (.error e, s)
        | .ok s2 =>
          Exchange.phase2 offer s2
            (fun fees => ThirdPartyFees.collect2 s2 offer.sender offer.recipient fees []))

/-- `Exchange::verify` (exchange.rs lines 165-190): sender and recipient must
differ, the strategy byte must decode to a two-party strategy — the
`.unwrap()` panics (`none`) on an undecodable byte — the enclosing message
signature must verify against the recipient, and the detached sender
signature must verify over the offer bytes.  Asset bundle amounts are not
inspected. -/
def Exchange.verify (tx : Exchange) : Option Bool :=
  let offer := tx.body.offer
  let walletsOk : Bool := decide (offer.sender ≠ offer.recipient)
  match FeeStrategy.tryFrom offer.feeStrategy with
  | none => none
  | some fs =>
    let feeStrategyOk : Bool :=
      match fs with
      | .recipient | .sender | .recipientAndSender => true
      | _ => false
    let recipientOk : Bool := decide (tx.envelopeSig = (tx.body, offer.recipient))
    let senderOk : Bool := decide (tx.body.senderSignature = (offer, offer.sender))
    some (walletsOk && feeStrategyOk && recipientOk && senderOk)

/-- `Exchange::execute` (exchange.rs lines 192-204): run the processing step
and record its result in the status map under the transaction hash; a panic
inside `process` (invalid strategy byte) aborts `execute` before any status
is written. -/
def Exchange.execute (tx : Exchange) (s : Fork) : Option Fork :=
  match Exchange.process tx s with
  | none => none
  | some (r, s1) => some (s1.storeStatus tx.hash r)

/-- Flat and per-asset issuance fees of an `AddAssets` transaction.
Modelled from the spec: `Fees::new_add_assets` (components module, not
under `src/`) computes, purely from the configuration snapshot, the flat
per-transaction fee and the total per-asset issuance cost. -/
structure FeesAA where
  forTransaction : Nat
  forAssetsTotal : Nat
deriving DecidableEq

/-- Modelled from the spec: fee computation for `AddAssets` — a flat fee plus
a per-asset cost for each issued meta asset. -/
def Fees.newAddAssets (s : Fork) (metas : List MetaAsset) : FeesAA :=
  { forTransaction := s.config.addAssetsFee,
    forAssetsTotal := s.config.perAssetFee * metas.length }

/-- The signed body of an `AddAssets` message (`message! AddAssets` in
add_assets.rs): issuer key, meta assets and seed. -/
structure AddAssetsBody where
  pubKey : Nat
  metaAssets : List MetaAsset
  seed : Nat
deriving DecidableEq

/-- A full `AddAssets` transaction: body, enclosing message signature
(checked against the issuer key) and message hash. -/
structure AddAssets where
  body : AddAssetsBody
  envelopeSig : AddAssetsBody × Nat
  hash : Nat
deriving DecidableEq

/-- `AddAssets::extract_assets` (add_assets.rs lines 77-94): for each meta
asset, derive the id from the meta's data string and its RECEIVER key,
fetch the registry entry and merge the new issuance into it (the fresh
entry when absent), recording the issuer as creator; collection over the
`Result`s short-circuits at the first error, so nothing is returned unless
every meta asset merges. -/
def AddAssets.extractLoop (key : Nat) (s : Fork) :
    List MetaAsset → Except TxError (List (Nat × AssetBundle × AssetInfo))
  | [] => .ok []
  | meta :: rest =>
    let id := AssetId.from_data meta.data meta.receiver
    match (match s.infos id with
           | none => Except.ok (meta.toInfo key)
           | some info => info.merge (meta.toInfo key)) with
    | .error e => .error e
    | .ok info =>
      match AddAssets.extractLoop key s rest with
      | .error e => .error e
      | .ok l => .ok ((meta.receiver, meta.toBundle id, info) :: l)

/-- Group the extracted assets by receiver, preserving encounter order within
each receiver (the `recipients` HashMap of add_assets.rs; keys are unique
in the result, so the HashMap iteration order does not affect the final
fork). -/
def groupInsert : List (Nat × List AssetBundle) → Nat → AssetBundle → List (Nat × List AssetBundle)
  | [], k, a => [(k, [a])]
  | (k0, l) :: rest, k, a =>
    if k0 = k then (k0, l ++ [a]) :: rest else (k0, l) :: groupInsert rest k a

/-- `AddAssets::process` (add_assets.rs lines 32-75): move the flat fee from
the issuer to the genesis wallet and STORE both wallets, move the per-asset
fee total on the already-mutated copies and store both wallets again, then
extract/merge all assets; on success store every merged registry entry and
credit each receiver with its bundles.  Note that the two fee transfers are
written to the fork before the asset batch is validated. -/
def AddAssets.process (tx : AddAssets) (s : Fork) : Except TxError Unit × Fork :=
  let gk := s.config.genesisKey
  let creatorPub := tx.body.pubKey
  let genesis0 := s.wallets gk
  let creator0 := s.wallets creatorPub
  let fees := Fees.newAddAssets s tx.body.metaAssets
  match move_coins creator0 genesis0 fees.forTransaction with
  | .error e => (.error e, s)
  | .ok (c1, g1) =>
    let s1 := (s.storeWallet gk g1).storeWallet creatorPub c1
    match move_coins c1 g1 fees.forAssetsTotal with
    | .error e => (.error e, s1)
    | .ok (c2, g2) =>
      let s2 := (s1.storeWallet gk g2).storeWallet creatorPub c2
      match AddAssets.extractLoop creatorPub s2 tx.body.metaAssets with
      | .error e => (.error e, s2)
      | .ok triples =>
        let s3 := triples.foldl (fun acc t => acc.storeInfo t.2.1.id t.2.2) s2
        let recipients := triples.foldl (fun acc t => groupInsert acc t.1 t.2.1) []
        (.ok (),
         recipients.foldl
           (fun acc kv => acc.storeWallet kv.1 ((acc.wallets kv.1).pushAssets kv.2)) s3)

/-- `AddAssets::verify` (add_assets.rs lines 102-118): the message signature
must verify against the issuer key and every meta asset must be
structurally valid. -/
def AddAssets.verify (tx : AddAssets) : Bool :=
  decide (tx.envelopeSig = (tx.body, tx.body.pubKey))
    && tx.body.metaAssets.all MetaAsset.verify

/-- `AddAssets::execute` (add_assets.rs lines 120-123): run the processing
step and record its result under the transaction hash. -/
def AddAssets.execute (tx : AddAssets) (s : Fork) : Fork :=
  let p := AddAssets.process tx s
  p.2.storeStatus tx.hash p.1

/-- The intermediary component of a brokered exchange
(`currency::transactions::components::Intermediary`).  Modelled from the
spec: a third signing party and its commission. -/
structure Intermediary where
  wallet : Nat
  commission : Nat
deriving DecidableEq

/-- The offer payload of an `ExchangeIntermediary`
(`encoding_struct! ExchangeOfferIntermediary` in exchange_intermediary.rs). -/
structure ExchangeOfferIntermediary where
  intermediary : Intermediary
  sender : Nat
  senderAssets : List AssetBundle
  senderValue : Nat
  recipient : Nat
  recipientAssets : List AssetBundle
  feeStrategy : Nat
deriving DecidableEq

/-- An `ExchangeIntermediary` transaction (`message! ExchangeIntermediary`):
offer, seed, the sender's and the intermediary's detached signatures, the
data-info string, and the message hash. -/
structure ExchangeIntermediary where
  offer : ExchangeOfferIntermediary
  seed : Nat
  senderSignature : ExchangeOfferIntermediary × Nat
  intermediarySignature : ExchangeOfferIntermediary × Nat
  dataInfo : String
  hash : Nat
deriving DecidableEq

/-- `ExchangeIntermediary::verify` (exchange_intermediary.rs lines 50-52) is
`unimplemented!()`: it panics unconditionally, modelled as `none`. -/
def ExchangeIntermediary.verify (_tx : ExchangeIntermediary) : Option Bool :=
  none

/-- `ExchangeIntermediary::execute` (exchange_intermediary.rs lines 54-57) is
`unimplemented!()`: it panics unconditionally and never writes a status
record, modelled as `none`. -/
def ExchangeIntermediary.execute (_tx : ExchangeIntermediary) (_s : Fork) : Option Fork :=
  none

/-- Parse errors of `src/src/service/assetid.rs`. -/
inductive ParseError where
  | invalidLength (n : Nat)
  | invalidCharacter (c : Char) (i : Nat)
  | unexpectedErrorAt (n : Nat)
deriving DecidableEq

/-- The 128-bit service asset identifier of `src/src/service/assetid.rs`,
a buffer of 16 bytes; bytes are modelled as `Nat` with the `< 256` bound
carried as a hypothesis where it matters. -/
structure AssetID where
  bytes : List Nat
deriving DecidableEq

/-- UTF-8 width of a character, as Rust `char::len_utf8` computes it; strings
are modelled as their character lists and Rust `str::len` as the sum of
these widths. -/
def charWidth (c : Char) : Nat :=
  if c.toNat < 128 then 1
  else if c.toNat < 2048 then 2
  else if c.toNat < 65536 then 3
  else 4

/-- Rust `str::len`: the UTF-8 byte length of a character list. -/
def byteLen : List Char → Nat
  | [] => 0
  | c :: rest => charWidth c + byteLen rest

/-- Rust `char::to_digit(16)`: the value of a hexadecimal digit, `none` for
any other character. -/
def hexDigitVal (c : Char) : Option Nat :=
  if 48 ≤ c.toNat ∧ c.toNat ≤ 57 then some (c.toNat - 48)
  else if 97 ≤ c.toNat ∧ c.toNat ≤ 102 then some (c.toNat - 87)
  else if 65 ≤ c.toNat ∧ c.toNat ≤ 70 then some (c.toNat - 55)
  else none

/-- The character-enumeration loop of `AssetID::from_str`: the first character
that is not a hexadecimal digit, together with its index. -/
def findNonHex : List Char → Nat → Option (Char × Nat)
  | [], _ => none
  | c :: rest, i => if (hexDigitVal c).isSome then findNonHex rest (i + 1) else some (c, i)

/-- The byte-building loop of `AssetID::from_str`: parse consecutive pairs of
hexadecimal digits (`u8::from_str_radix(&us[offset..offset+2], 16)`) into
bytes, reporting the offset on an unparsable pair — unreachable after the
hex scan, but kept to mirror the source. -/
def parsePairs : List Char → Nat → Except ParseError (List Nat)
  | [], _ => .ok []
  | c1 :: c2 :: rest, off =>
    match hexDigitVal c1, hexDigitVal c2 with
    | some hi, some lo =>
      (match parsePairs rest (off + 2) with
       | .error e => .error e
       | .ok bs => .ok ((hi * 16 + lo) :: bs))
    | _, _ => .error (.unexpectedErrorAt off)
  | [_], off => .error (.unexpectedErrorAt off)

/-- `AssetID::from_bytes` (assetid.rs lines 37-46): reject any slice whose
length is not 16. -/
def AssetID.from_bytes (b : List Nat) : Except ParseError AssetID :=
  if b.length ≠ 16 then .error (.invalidLength b.length) else .ok { bytes := b }

/-- `AssetID::from_str` (assetid.rs lines 48-73): reject inputs whose UTF-8
BYTE length is not 32, then reject the first non-hexadecimal character by
character index, then parse the 16 byte pairs. -/
def AssetID.from_str (us : List Char) : Except ParseError AssetID :=
  if byteLen us ≠ 32 then .error (.invalidLength (byteLen us))
  else
    match findNonHex us 0 with
    | some ci => .error (.invalidCharacter ci.1 ci.2)
    | none =>
      match parsePairs us 0 with
      | .error e => .error e
      | .ok bs => AssetID.from_bytes bs

/-- Rust `format!("\x7b:02x\x7d", byte)` for a half-byte value: the lower-case
hexadecimal digit character. -/
def hexChar (n : Nat) : Char :=
  if n < 10 then Char.ofNat (48 + n) else Char.ofNat (87 + n)

/-- `AssetID::to_string` (assetid.rs lines 76-86): the concatenation of the
two-digit lower-case hexadecimal renderings of the 16 bytes. -/
def AssetID.to_string (a : AssetID) : List Char :=
  a.bytes.foldr (fun b acc => hexChar (b / 16) :: hexChar (b % 16) :: acc) []

deriving instance DecidableEq for Except

theorem move_coins_of_lt {source target : Wallet} {amount : Nat}
    (h : source.balance < amount) :
    move_coins source target amount = .error .insufficientFunds := by
  unfold move_coins
  rw [if_pos h]

theorem tryFrom_intermediary {b : Nat} (h : FeeStrategy.tryFrom b = some .intermediary) :
    b = 4 := by
  match b with
  | 0 => simp [FeeStrategy.tryFrom] at h
  | 1 => simp [FeeStrategy.tryFrom] at h
  | 2 => simp [FeeStrategy.tryFrom] at h
  | 3 => simp [FeeStrategy.tryFrom] at h
  | 4 => rfl
  | n + 5 => simp [FeeStrategy.tryFrom] at h

/-- C8: asset-identifier derivation is a pure function of the data string and
the public key — identical inputs always give the identical identifier, it
is stable under repetition, distinct public keys with the same data string
give distinct identifiers, and the bundle constructor of
`asset_bundle.rs` uses exactly this derivation. -/
theorem c8_derivation_pure (d : String) (k1 k2 : Nat) (h : k1 ≠ k2) :
    AssetId.from_data d k1 = AssetId.from_data d k1
    ∧ AssetId.from_data d k1 ≠ AssetId.from_data d k2
    ∧ ∀ amt, (AssetBundle.from_data d amt k1).id = AssetId.from_data d k1 := by
  refine ⟨rfl, ?_, fun amt => rfl⟩
  intro hc
  exact h (congrArg AssetId.key hc)

theorem c8_derivation_pure_witness :
    AssetId.from_data "X" 1 = AssetId.from_data "X" 1
    ∧ AssetId.from_data "X" 1 ≠ AssetId.from_data "X" 2
    ∧ ∀ amt, (AssetBundle.from_data "X" amt 1).id = AssetId.from_data "X" 1 :=
  c8_derivation_pure "X" 1 2 (by decide)

/-- C6: a two-party `Exchange` whose fee-strategy byte decodes to
`Intermediary` is rejected by `verify`, and its processing step, if run
anyway, returns `InvalidTransaction` with the fork exactly unchanged. -/
theorem c6_intermediary_rejected (tx : Exchange) (s : Fork)
    (h : FeeStrategy.tryFrom tx.body.offer.feeStrategy = some .intermediary) :
    Exchange.verify tx = some false
    ∧ Exchange.process tx s = some (.error .invalidTransaction, s)
    ∧ Exchange.execute tx s = some (s.storeStatus tx.hash (.error .invalidTransaction)) := by
  refine ⟨?_, ?_, ?_⟩
  · unfold Exchange.verify
    dsimp only
    rw [h]
    simp
  · unfold Exchange.process
    dsimp only
    rw [h]
  · unfold Exchange.execute Exchange.process
    dsimp only
    rw [h]

/-- Shared concrete configuration for the concrete runs below: genesis wallet
key 0, exchange flat fee 4, add-assets flat fee 4, per-asset issuance fee 3. -/
def cfgA : Config := { genesisKey := 0, exchangeFee := 4, addAssetsFee := 4, perAssetFee := 3 }

/-- A fork whose wallet 1 holds 10 coins and everything else is empty. -/
def sEx : Fork :=
  { wallets := fun k => if k = 1 then { balance := 10, assets := [] } else { balance := 0, assets := [] },
    infos := fun _ => none, statuses := fun _ => none, config := cfgA }

/-- A fork with no funds anywhere. -/
def sPoor : Fork :=
  { wallets := fun _ => { balance := 0, assets := [] },
    infos := fun _ => none, statuses := fun _ => none, config := cfgA }

/-- Exchange offer used by several concrete runs: sender 1 offers one unit of
an unregistered asset to recipient 2, fee strategy byte 2 (`Sender`). -/
def offC1 : ExchangeOffer :=
  { sender := 1, senderAssets := [{ id := AssetId.from_data "Y" 9, amount := 1 }],
    senderValue := 0, recipient := 2, recipientAssets := [], feeStrategy := 2 }

def exbC1 : ExchangeBody :=
  { offer := offC1, seed := 0, senderSignature := (offC1, 1), dataInfo := "" }

def exC1 : Exchange := { body := exbC1, envelopeSig := (exbC1, 2), hash := 55 }

/-- Exchange with a zero-amount asset bundle and otherwise valid fields. -/
def off5 : ExchangeOffer :=
  { sender := 1, senderAssets := [{ id := AssetId.from_data "Z" 1, amount := 0 }],
    senderValue := 0, recipient := 2, recipientAssets := [], feeStrategy := 2 }

def exb5 : ExchangeBody :=
  { offer := off5, seed := 0, senderSignature := (off5, 1), dataInfo := "" }

def ex5 : Exchange := { body := exb5, envelopeSig := (exb5, 2), hash := 57 }

/-- Exchange whose fee-strategy byte 0 does not decode to any strategy. -/
def offBad : ExchangeOffer :=
  { sender := 1, senderAssets := [], senderValue := 0, recipient := 2,
    recipientAssets := [], feeStrategy := 0 }

def exbBad : ExchangeBody :=
  { offer := offBad, seed := 0, senderSignature := (offBad, 1), dataInfo := "" }

def exBad : Exchange := { body := exbBad, envelopeSig := (exbBad, 2), hash := 58 }

/-- Exchange whose fee-strategy byte 4 decodes to `Intermediary`. -/
def off6 : ExchangeOffer :=
  { sender := 1, senderAssets := [], senderValue := 0, recipient := 2,
    recipientAssets := [], feeStrategy := 4 }

def exb6 : ExchangeBody :=
  { offer := off6, seed := 0, senderSignature := (off6, 1), dataInfo := "" }

def ex6 : Exchange := { body := exb6, envelopeSig := (exb6, 2), hash := 59 }

theorem c6_intermediary_rejected_witness :
    Exchange.verify ex6 = some false
    ∧ Exchange.process ex6 sEx = some (.error .invalidTransaction, sEx)
    ∧ Exchange.execute ex6 sEx = some (sEx.storeStatus ex6.hash (.error .invalidTransaction)) :=
  c6_intermediary_rejected ex6 sEx rfl

/-- C5 (amended): `Exchange::verify` returns true exactly when sender and
recipient differ, the decoded strategy is a two-party one, and both
signatures verify; asset bundle amounts are NOT inspected, and an
undecodable fee-strategy byte makes `verify` panic (`none`) instead of
returning false. -/
theorem c5_verify_characterisation :
    (∀ tx : Exchange, FeeStrategy.tryFrom tx.body.offer.feeStrategy = none →
      Exchange.verify tx = none)
    ∧ (∀ (tx : Exchange) (fs : FeeStrategy),
        FeeStrategy.tryFrom tx.body.offer.feeStrategy = some fs →
        (Exchange.verify tx = some true ↔
          tx.body.offer.sender ≠ tx.body.offer.recipient
          ∧ fs ≠ .intermediary
          ∧ tx.envelopeSig = (tx.body, tx.body.offer.recipient)
          ∧ tx.body.senderSignature = (tx.body.offer, tx.body.offer.sender))) := by
  constructor
  · intro tx h
    unfold Exchange.verify
    dsimp only
    rw [h]
  · intro tx fs h
    unfold Exchange.verify
    dsimp only
    rw [h]
    cases fs <;> simp [and_assoc]

/-- C5 counterexample: this transaction carries an asset bundle of amount 0,
yet `verify` accepts it — the claimed "every asset bundle amount is
strictly positive" conjunct of the iff is not checked by the code. -/
theorem c5_verify_counterexample :
    Exchange.verify ex5 = some true
    ∧ ex5.body.offer.senderAssets.any (fun b => decide (b.amount = 0)) = true := by
  constructor
  · decide
  · decide

theorem c5_verify_characterisation_witness :
    Exchange.verify exBad = none ∧ Exchange.verify ex6 = some false := by
  constructor
  · exact c5_verify_characterisation.1 exBad rfl
  · have h := (c5_verify_characterisation.2 ex6 .intermediary rfl)
    cases hv : Exchange.verify ex6 with
    | none =>
      exact absurd hv (by decide)
    | some b =>
      cases b with
      | false => rfl
      | true =>
        have := h.mp hv
        exact absurd this.2.1 (by simp)

theorem feePhase_sender_lt (offer : ExchangeOffer) (s : Fork)
    (hb : (s.wallets offer.sender).balance < s.config.exchangeFee) :
    Exchange.feePhase offer .sender s = .error .insufficientFunds := by
  unfold Exchange.feePhase
  dsimp only
  rw [move_coins_of_lt hb]

theorem feePhase_recipient_lt (offer : ExchangeOffer) (s : Fork)
    (hb : (s.wallets offer.recipient).balance < s.config.exchangeFee) :
    Exchange.feePhase offer .recipient s = .error .insufficientFunds := by
  unfold Exchange.feePhase
  dsimp only
  rw [move_coins_of_lt hb]

theorem feePhase_rs_lt (offer : ExchangeOffer) (s : Fork)
    (hb : (s.wallets offer.recipient).balance < s.config.exchangeFee / 2
        ∨ (s.wallets offer.sender).balance < s.config.exchangeFee / 2) :
    Exchange.feePhase offer .recipientAndSender s = .error .insufficientFunds := by
  unfold Exchange.feePhase
  dsimp only
  rcases Nat.lt_or_ge (s.wallets offer.recipient).balance (s.config.exchangeFee / 2) with hr | hr
  · rw [move_coins_of_lt hr]
  · have hs : (s.wallets offer.sender).balance < s.config.exchangeFee / 2 := by
      rcases hb with hb | hb
      · exact absurd hb (Nat.not_lt.mpr hr)
      · exact hb
    rw [move_coins_of_le hr]
    dsimp only
    rw [move_coins_of_lt hs]

/-- C7: the flat exchange fee is collected before the third-party taxes and
before the principal transfer; when the strategy-designated payer cannot
afford it (its relevant share), processing fails with `InsufficientFunds`
and the fork is returned exactly unchanged — regardless of whether funds
and assets would have sufficed for the principal transfer — and `execute`
records exactly that failure status. -/
theorem c7_flat_fee_first (tx : Exchange) (s : Fork) (fs : FeeStrategy)
    (htf : FeeStrategy.tryFrom tx.body.offer.feeStrategy = some fs)
    (hpay : (fs = .sender ∧ (s.wallets tx.body.offer.sender).balance < s.config.exchangeFee)
          ∨ (fs = .recipient ∧ (s.wallets tx.body.offer.recipient).balance < s.config.exchangeFee)
          ∨ (fs = .recipientAndSender ∧
              ((s.wallets tx.body.offer.recipient).balance < s.config.exchangeFee / 2
               ∨ (s.wallets tx.body.offer.sender).balance < s.config.exchangeFee / 2))) :
    Exchange.process tx s = some (.error .insufficientFunds, s)
    ∧ Exchange.execute tx s = some (s.storeStatus tx.hash (.error .insufficientFunds)) := by
  have hp : Exchange.process tx s = some (.error .insufficientFunds, s) := by
    unfold Exchange.process
    dsimp only
    rw [htf]
    rcases hpay with ⟨hfs, hb⟩ | ⟨hfs, hb⟩ | ⟨hfs, hb⟩ <;> subst hfs <;> dsimp only
    · rw [feePhase_sender_lt tx.body.offer s hb]
    · rw [feePhase_recipient_lt tx.body.offer s hb]
    · rw [feePhase_rs_lt tx.body.offer s hb]
  refine ⟨hp, ?_⟩
  unfold Exchange.execute
  rw [hp]

theorem c7_flat_fee_first_witness :
    Exchange.process exC1 sPoor = some (.error .insufficientFunds, sPoor)
    ∧ Exchange.execute exC1 sPoor = some (sPoor.storeStatus exC1.hash (.error .insufficientFunds)) :=
  c7_flat_fee_first exC1 sPoor .sender rfl (Or.inl ⟨rfl, by decide⟩)

theorem feePhase_rs_ok (offer : ExchangeOffer) (s : Fork)
    (hr : s.config.exchangeFee / 2 ≤ (s.wallets offer.recipient).balance)
    (hs : s.config.exchangeFee / 2 ≤ (s.wallets offer.sender).balance) :
    Exchange.feePhase offer .recipientAndSender s = .ok
      (((s.storeWallet offer.sender
          { s.wallets offer.sender with
              balance := (s.wallets offer.sender).balance - s.config.exchangeFee / 2 }).storeWallet
          offer.recipient
          { s.wallets offer.recipient with
              balance := (s.wallets offer.recipient).balance - s.config.exchangeFee / 2 }).storeWallet
          s.config.genesisKey
          { s.wallets s.config.genesisKey with
              balance := (s.wallets s.config.genesisKey).balance + s.config.exchangeFee / 2
                          + s.config.exchangeFee / 2 }) := by
  unfold Exchange.feePhase
  dsimp only
  rw [move_coins_of_le hr]
  dsimp only
  rw [move_coins_of_le hs]

theorem phase2_no_assets (offer : ExchangeOffer) (s2 : Fork)
    (col : List (Nat × Nat) → Except TxError (List (Nat × Wallet)))
    (hsa : offer.senderAssets = []) (hra : offer.recipientAssets = [])
    (hv : offer.senderValue = 0) (hcol : col [] = .ok [])
    (hsr : offer.sender ≠ offer.recipient) :
    Exchange.phase2 offer s2 col =
      (.ok (), (s2.storeWallet offer.sender (s2.wallets offer.sender)).storeWallet
                 offer.recipient (s2.wallets offer.recipient)) := by
  unfold Exchange.phase2 Exchange.principal
  rw [hsa, hra, hv]
  dsimp only [List.nil_append]
  simp only [ThirdPartyFees.newExchange]
  rw [hcol]
  dsimp only [takeWallet, lookupW]
  rw [move_coins_of_le (Nat.zero_le _)]
  dsimp only [move_assets]
  simp only [putW, if_neg hsr]
  dsimp only [Fork.storeWallets, List.foldl]
  simp

theorem phase2_no_assets_col2 (offer : ExchangeOffer) (s2 : Fork) (a b : Nat)
    (hsa : offer.senderAssets = []) (hra : offer.recipientAssets = [])
    (hv : offer.senderValue = 0) (hsr : offer.sender ≠ offer.recipient) :
    Exchange.phase2 offer s2 (fun fees => ThirdPartyFees.collect2 s2 a b fees []) =
      (.ok (), (s2.storeWallet offer.sender (s2.wallets offer.sender)).storeWallet
                 offer.recipient (s2.wallets offer.recipient)) :=
  phase2_no_assets offer s2 _ hsa hra hv rfl hsr

/-- C4 (amended): under the `SenderAndRecipient` strategy with both parties
able to pay and no asset bundles or coin value in the offer, processing
debits the RECIPIENT by `F / 2` and the SENDER also by `F / 2` (not by
`F - F / 2`), and the Treasury/genesis wallet is credited `F / 2 + F / 2`
in total — exactly `F` when `F` is even, but `F - 1` when `F` is odd. -/
theorem c4_split_fee (tx : Exchange) (s : Fork)
    (htf : FeeStrategy.tryFrom tx.body.offer.feeStrategy = some .recipientAndSender)
    (hsa : tx.body.offer.senderAssets = [])
    (hra : tx.body.offer.recipientAssets = [])
    (hv : tx.body.offer.senderValue = 0)
    (hsr : tx.body.offer.sender ≠ tx.body.offer.recipient)
    (hsg : tx.body.offer.sender ≠ s.config.genesisKey)
    (hrg : tx.body.offer.recipient ≠ s.config.genesisKey)
    (hr : s.config.exchangeFee / 2 ≤ (s.wallets tx.body.offer.recipient).balance)
    (hs : s.config.exchangeFee / 2 ≤ (s.wallets tx.body.offer.sender).balance) :
    ∃ sf, Exchange.process tx s = some (.ok (), sf)
      ∧ (sf.wallets tx.body.offer.sender).balance
          = (s.wallets tx.body.offer.sender).balance - s.config.exchangeFee / 2
      ∧ (sf.wallets tx.body.offer.recipient).balance
          = (s.wallets tx.body.offer.recipient).balance - s.config.exchangeFee / 2
      ∧ (sf.wallets s.config.genesisKey).balance
          = (s.wallets s.config.genesisKey).balance
            + (s.config.exchangeFee / 2 + s.config.exchangeFee / 2) := by
  unfold Exchange.process
  dsimp only
  rw [htf]
  dsimp only
  rw [feePhase_rs_ok tx.body.offer s hr hs]
  dsimp only
  rw [phase2_no_assets_col2 tx.body.offer _ _ _ hsa hra hv hsr]
  refine ⟨_, rfl, ?_, ?_, ?_⟩
  · simp [Fork.storeWallet, hsr, hsg]
  · simp [Fork.storeWallet, hrg]
  · simp [Fork.storeWallet, Ne.symm hsg, Ne.symm hrg, Nat.add_assoc]

theorem storeWallets_statuses (l : List (Nat × Wallet)) (s : Fork) :
    (s.storeWallets l).statuses = s.statuses := by
  induction l generalizing s with
  | nil => rfl
  | cons kw rest ih => exact ih (s.storeWallet kw.1 kw.2)

theorem storeWallets_infos (l : List (Nat × Wallet)) (s : Fork) :
    (s.storeWallets l).infos = s.infos := by
  induction l generalizing s with
  | nil => rfl
  | cons kw rest ih => exact ih (s.storeWallet kw.1 kw.2)

theorem storeWallets_config (l : List (Nat × Wallet)) (s : Fork) :
    (s.storeWallets l).config = s.config := by
  induction l generalizing s with
  | nil => rfl
  | cons kw rest ih => exact ih (s.storeWallet kw.1 kw.2)

theorem infoLoop_statuses (l : List (Nat × AssetBundle × AssetInfo)) (s : Fork) :
    (l.foldl (fun acc t => acc.storeInfo t.2.1.id t.2.2) s).statuses = s.statuses := by
  induction l generalizing s with
  | nil => rfl
  | cons t rest ih => exact ih (s.storeInfo t.2.1.id t.2.2)

theorem infoLoop_wallets (l : List (Nat × AssetBundle × AssetInfo)) (s : Fork) :
    (l.foldl (fun acc t => acc.storeInfo t.2.1.id t.2.2) s).wallets = s.wallets := by
  induction l generalizing s with
  | nil => rfl
  | cons t rest ih => exact ih (s.storeInfo t.2.1.id t.2.2)

theorem infoLoop_config (l : List (Nat × AssetBundle × AssetInfo)) (s : Fork) :
    (l.foldl (fun acc t => acc.storeInfo t.2.1.id t.2.2) s).config = s.config := by
  induction l generalizing s with
  | nil => rfl
  | cons t rest ih => exact ih (s.storeInfo t.2.1.id t.2.2)

theorem creditLoop_statuses (l : List (Nat × List AssetBundle)) (s : Fork) :
    (l.foldl (fun acc kv => acc.storeWallet kv.1 ((acc.wallets kv.1).pushAssets kv.2)) s).statuses
      = s.statuses := by
  induction l generalizing s with
  | nil => rfl
  | cons kv rest ih => exact ih _

theorem creditLoop_infos (l : List (Nat × List AssetBundle)) (s : Fork) :
    (l.foldl (fun acc kv => acc.storeWallet kv.1 ((acc.wallets kv.1).pushAssets kv.2)) s).infos
      = s.infos := by
  induction l generalizing s with
  | nil => rfl
  | cons kv rest ih => exact ih _

theorem creditLoop_config (l : List (Nat × List AssetBundle)) (s : Fork) :
    (l.foldl (fun acc kv => acc.storeWallet kv.1 ((acc.wallets kv.1).pushAssets kv.2)) s).config
      = s.config := by
  induction l generalizing s with
  | nil => rfl
  | cons kv rest ih => exact ih _

theorem phase2_statuses (offer : ExchangeOffer) (s2 : Fork)
    (col : List (Nat × Nat) → Except TxError (List (Nat × Wallet))) :
    (Exchange.phase2 offer s2 col).2.statuses = s2.statuses := by
  unfold Exchange.phase2 Exchange.principal
  dsimp only
  repeat' split
  all_goals simp [storeWallets_statuses]

theorem phase2_infos (offer : ExchangeOffer) (s2 : Fork)
    (col : List (Nat × Nat) → Except TxError (List (Nat × Wallet))) :
    (Exchange.phase2 offer s2 col).2.infos = s2.infos := by
  unfold Exchange.phase2 Exchange.principal
  dsimp only
  repeat' split
  all_goals simp [storeWallets_infos]

theorem phase2_config (offer : ExchangeOffer) (s2 : Fork)
    (col : List (Nat × Nat) → Except TxError (List (Nat × Wallet))) :
    (Exchange.phase2 offer s2 col).2.config = s2.config := by
  unfold Exchange.phase2 Exchange.principal
  dsimp only
  repeat' split
  all_goals simp [storeWallets_config]

theorem phase2_error {offer : ExchangeOffer} {s2 : Fork}
    {col : List (Nat × Nat) → Except TxError (List (Nat × Wallet))}
    {e : TxError} {sf : Fork}
    (h : Exchange.phase2 offer s2 col = (.error e, sf)) : sf = s2 := by
  unfold Exchange.phase2 Exchange.principal at h
  dsimp only at h
  repeat' split at h
  all_goals injection h with h1 h2
  all_goals first
    | exact h2.symm
    | exact absurd h1 (by simp)

theorem feePhase_ok_preserves {offer : ExchangeOffer} {fs : FeeStrategy} {s s2 : Fork}
    (h : Exchange.feePhase offer fs s = .ok s2) :
    s2.statuses = s.statuses ∧ s2.infos = s.infos ∧ s2.config = s.config
    ∧ (∀ k, (s2.wallets k).assets = (s.wallets k).assets)
    ∧ (∀ k, k ≠ offer.sender → k ≠ offer.recipient → k ≠ s.config.genesisKey →
        s2.wallets k = s.wallets k) := by
  cases fs with
  | intermediary =>
    unfold Exchange.feePhase at h
    exact absurd h (by simp)
  | recipient =>
    unfold Exchange.feePhase at h
    dsimp only at h
    rcases hm : move_coins (s.wallets offer.recipient) (s.wallets s.config.genesisKey)
        s.config.exchangeFee with e1 | p
    · rw [hm] at h
      exact absurd h (by simp)
    · rw [hm] at h
      obtain ⟨r1, g1⟩ := p
      injection h with h1
      subst h1
      obtain ⟨ha1, ha2, -, -⟩ := move_coins_ok hm
      dsimp only at ha1 ha2
      refine ⟨rfl, rfl, rfl, ?_, ?_⟩
      · intro k
        simp only [Fork.storeWallet]
        by_cases h1 : k = s.config.genesisKey
        · subst h1; simp [ha2]
        · by_cases h2 : k = offer.recipient
          · subst h2; simp [h1, ha1]
          · simp [h1, h2]
      · intro k hk1 hk2 hk3
        simp only [Fork.storeWallet]
        rw [if_neg hk3, if_neg hk2]
  | sender =>
    unfold Exchange.feePhase at h
    dsimp only at h
    rcases hm : move_coins (s.wallets offer.sender) (s.wallets s.config.genesisKey)
        s.config.exchangeFee with e1 | p
    · rw [hm] at h
      exact absurd h (by simp)
    · rw [hm] at h
      obtain ⟨s1, g1⟩ := p
      injection h with h1
      subst h1
      obtain ⟨ha1, ha2, -, -⟩ := move_coins_ok hm
      dsimp only at ha1 ha2
      refine ⟨rfl, rfl, rfl, ?_, ?_⟩
      · intro k
        simp only [Fork.storeWallet]
        by_cases h1 : k = s.config.genesisKey
        · subst h1; simp [ha2]
        · by_cases h2 : k = offer.sender
          · subst h2; simp [h1, ha1]
          · simp [h1, h2]
      · intro k hk1 hk2 hk3
        simp only [Fork.storeWallet]
        rw [if_neg hk3, if_neg hk1]
  | recipientAndSender =>
    unfold Exchange.feePhase at h
    dsimp only at h
    rcases hm : move_coins (s.wallets offer.recipient) (s.wallets s.config.genesisKey)
        (s.config.exchangeFee / 2) with e1 | p
    · rw [hm] at h
      exact absurd h (by simp)
    · rw [hm] at h
      obtain ⟨r1, g1⟩ := p
      dsimp only at h
      rcases hm2 : move_coins (s.wallets offer.sender) g1 (s.config.exchangeFee / 2) with e2 | p2
      · rw [hm2] at h
        exact absurd h (by simp)
      · rw [hm2] at h
        obtain ⟨s1, g2⟩ := p2
        injection h with h1
        subst h1
        obtain ⟨ha1, ha2, -, -⟩ := move_coins_ok hm
        obtain ⟨hb1, hb2, -, -⟩ := move_coins_ok hm2
        dsimp only at ha1 ha2 hb1 hb2
        refine ⟨rfl, rfl, rfl, ?_, ?_⟩
        · intro k
          simp only [Fork.storeWallet]
          by_cases h1 : k = s.config.genesisKey
          · subst h1; simp [hb2, ha2]
          · by_cases h2 : k = offer.recipient
            · subst h2; simp [h1, ha1]
            · by_cases h3 : k = offer.sender
              · subst h3; simp [h1, h2, hb1]
              · simp [h1, h2, h3]
        · intro k hk1 hk2 hk3
          simp only [Fork.storeWallet]
          rw [if_neg hk3, if_neg hk2, if_neg hk1]

theorem exchange_process_preserves {tx : Exchange} {s : Fork} {r : Except TxError Unit} {sf : Fork}
    (h : Exchange.process tx s = some (r, sf)) :
    sf.statuses = s.statuses ∧ sf.infos = s.infos ∧ sf.config = s.config := by
  unfold Exchange.process at h
  dsimp only at h
  rcases htf : FeeStrategy.tryFrom tx.body.offer.feeStrategy with - | fs
  · rw [htf] at h
    exact absurd h (by simp)
  · rw [htf] at h
    injection h with h1
    cases fs with
    | intermediary =>
      injection h1 with h2 h3
      subst h3
      exact ⟨rfl, rfl, rfl⟩
    | recipient =>
      dsimp only at h1
      rcases hfp : Exchange.feePhase tx.body.offer .recipient s with e1 | s2
      · rw [hfp] at h1
        injection h1 with h2 h3
        subst h3
        exact ⟨rfl, rfl, rfl⟩
      · rw [hfp] at h1
        dsimp only at h1
        obtain ⟨hst, hin, hcf, -, -⟩ := feePhase_ok_preserves hfp
        have h3 : sf = (Exchange.phase2 tx.body.offer s2
            (fun fees => ThirdPartyFees.collect s2 tx.body.offer.recipient fees [])).2 := by
          rw [h1]
        rw [h3, phase2_statuses, phase2_infos, phase2_config]
        exact ⟨hst, hin, hcf⟩
    | sender =>
      dsimp only at h1
      rcases hfp : Exchange.feePhase tx.body.offer .sender s with e1 | s2
      · rw [hfp] at h1
        injection h1 with h2 h3
        subst h3
        exact ⟨rfl, rfl, rfl⟩
      · rw [hfp] at h1
        dsimp only at h1
        obtain ⟨hst, hin, hcf, -, -⟩ := feePhase_ok_preserves hfp
        have h3 : sf = (Exchange.phase2 tx.body.offer s2
            (fun fees => ThirdPartyFees.collect s2 tx.body.offer.sender fees [])).2 := by
          rw [h1]
        rw [h3, phase2_statuses, phase2_infos, phase2_config]
        exact ⟨hst, hin, hcf⟩
    | recipientAndSender =>
      dsimp only at h1
      rcases hfp : Exchange.feePhase tx.body.offer .recipientAndSender s with e1 | s2
      · rw [hfp] at h1
        injection h1 with h2 h3
        subst h3
        exact ⟨rfl, rfl, rfl⟩
      · rw [hfp] at h1
        dsimp only at h1
        obtain ⟨hst, hin, hcf, -, -⟩ := feePhase_ok_preserves hfp
        have h3 : sf = (Exchange.phase2 tx.body.offer s2
            (fun fees => ThirdPartyFees.collect2 s2 tx.body.offer.sender
                           tx.body.offer.recipient fees [])).2 := by
          rw [h1]
        rw [h3, phase2_statuses, phase2_infos, phase2_config]
        exact ⟨hst, hin, hcf⟩

theorem addAssets_process_statuses (tx : AddAssets) (s : Fork) :
    (AddAssets.process tx s).2.statuses = s.statuses := by
  unfold AddAssets.process
  dsimp only
  repeat' split
  all_goals simp [creditLoop_statuses, infoLoop_statuses, Fork.storeWallet_statuses]

theorem extractLoop_ids {key : Nat} {s : Fork} :
    ∀ {metas : List MetaAsset} {l : List (Nat × AssetBundle × AssetInfo)},
    AddAssets.extractLoop key s metas = .ok l →
    l.map (fun t => t.2.1.id) = metas.map (fun m => AssetId.from_data m.data m.receiver)
  | [], l, h => by
    unfold AddAssets.extractLoop at h
    injection h with h1
    subst h1
    rfl
  | meta :: rest, l, h => by
    unfold AddAssets.extractLoop at h
    dsimp only at h
    split at h
    · exact absurd h (by simp)
    · split at h
      · exact absurd h (by simp)
      · injection h with h1
        subst h1
        have ih := extractLoop_ids (by assumption)
        simp only [List.map, MetaAsset.toBundle]
        rw [ih]

theorem infoLoop_isSome_mono (l : List (Nat × AssetBundle × AssetInfo)) (s : Fork)
    (id : AssetId) (h : (s.infos id).isSome) :
    (((l.foldl (fun acc t => acc.storeInfo t.2.1.id t.2.2) s).infos id)).isSome := by
  induction l generalizing s with
  | nil => exact h
  | cons t rest ih =>
    refine ih (s.storeInfo t.2.1.id t.2.2) ?_
    simp only [Fork.storeInfo]
    by_cases h1 : id = t.2.1.id
    · simp [h1]
    · simp [h1, h]

theorem infoLoop_mem_isSome (l : List (Nat × AssetBundle × AssetInfo)) (s : Fork)
    (id : AssetId) (hmem : id ∈ l.map (fun t => t.2.1.id)) :
    (((l.foldl (fun acc t => acc.storeInfo t.2.1.id t.2.2) s).infos id)).isSome := by
  induction l generalizing s with
  | nil => simp at hmem
  | cons t rest ih =>
    rcases List.mem_cons.mp hmem with h1 | h1
    · refine infoLoop_isSome_mono rest _ id ?_
      simp [Fork.storeInfo, h1]
    · exact ih (s.storeInfo t.2.1.id t.2.2) h1

theorem exchange_process_error_state {tx : Exchange} {s : Fork} {e : TxError} {sf : Fork}
    (h : Exchange.process tx s = some (.error e, sf)) :
    (∀ k, (sf.wallets k).assets = (s.wallets k).assets)
    ∧ (∀ k, k ≠ tx.body.offer.sender → k ≠ tx.body.offer.recipient →
        k ≠ s.config.genesisKey → sf.wallets k = s.wallets k) := by
  unfold Exchange.process at h
  dsimp only at h
  rcases htf : FeeStrategy.tryFrom tx.body.offer.feeStrategy with - | fs
  · rw [htf] at h
    exact absurd h (by simp)
  · rw [htf] at h
    injection h with h1
    cases fs with
    | intermediary =>
      injection h1 with h2 h3
      subst h3
      exact ⟨fun k => rfl, fun k _ _ _ => rfl⟩
    | recipient =>
      dsimp only at h1
      rcases hfp : Exchange.feePhase tx.body.offer .recipient s with e1 | s2
      · rw [hfp] at h1
        dsimp only at h1
        injection h1 with h2 h3
        subst h3
        exact ⟨fun k => rfl, fun k _ _ _ => rfl⟩
      · rw [hfp] at h1
        dsimp only at h1
        have hsf : sf = s2 := phase2_error h1
        subst hsf
        obtain ⟨-, -, -, h4, h5⟩ := feePhase_ok_preserves hfp
        exact ⟨h4, h5⟩
    | sender =>
      dsimp only at h1
      rcases hfp : Exchange.feePhase tx.body.offer .sender s with e1 | s2
      · rw [hfp] at h1
        dsimp only at h1
        injection h1 with h2 h3
        subst h3
        exact ⟨fun k => rfl, fun k _ _ _ => rfl⟩
      · rw [hfp] at h1
        dsimp only at h1
        have hsf : sf = s2 := phase2_error h1
        subst hsf
        obtain ⟨-, -, -, h4, h5⟩ := feePhase_ok_preserves hfp
        exact ⟨h4, h5⟩
    | recipientAndSender =>
      dsimp only at h1
      rcases hfp : Exchange.feePhase tx.body.offer .recipientAndSender s with e1 | s2
      · rw [hfp] at h1
        dsimp only at h1
        injection h1 with h2 h3
        subst h3
        exact ⟨fun k => rfl, fun k _ _ _ => rfl⟩
      · rw [hfp] at h1
        dsimp only at h1
        have hsf : sf = s2 := phase2_error h1
        subst hsf
        obtain ⟨-, -, -, h4, h5⟩ := feePhase_ok_preserves hfp
        exact ⟨h4, h5⟩

/-- C1 (amended): when the internal processing step of `AddAssets` or
`Exchange` returns an error, `execute` records exactly that `Fail` status,
the asset registry, the status map and every wallet's asset holdings are
unchanged, and every wallet other than the fee payer(s) and the
Treasury/genesis wallet is unchanged — but balance mutations from the fee
phase that were stored before the failing step REMAIN in the fork.  On
success, `AddAssets` merges a registry entry for every issued meta asset
(all-or-nothing for the asset batch itself). -/
theorem c1_atomicity :
    (∀ (tx : AddAssets) (s : Fork) (e : TxError) (sf : Fork),
      AddAssets.process tx s = (.error e, sf) →
      sf.infos = s.infos ∧ sf.statuses = s.statuses
      ∧ (∀ k, (sf.wallets k).assets = (s.wallets k).assets)
      ∧ (∀ k, k ≠ tx.body.pubKey → k ≠ s.config.genesisKey → sf.wallets k = s.wallets k)
      ∧ (AddAssets.execute tx s).statuses tx.hash = some (.error e))
    ∧ (∀ (tx : Exchange) (s : Fork) (e : TxError) (sf : Fork),
      Exchange.process tx s = some (.error e, sf) →
      sf.infos = s.infos ∧ sf.statuses = s.statuses
      ∧ (∀ k, (sf.wallets k).assets = (s.wallets k).assets)
      ∧ (∀ k, k ≠ tx.body.offer.sender → k ≠ tx.body.offer.recipient →
          k ≠ s.config.genesisKey → sf.wallets k = s.wallets k)
      ∧ Exchange.execute tx s = some (sf.storeStatus tx.hash (.error e)))
    ∧ (∀ (tx : AddAssets) (s : Fork) (sf : Fork),
      AddAssets.process tx s = (.ok (), sf) →
      ∀ m ∈ tx.body.metaAssets,
        (sf.infos (AssetId.from_data m.data m.receiver)).isSome) := by
  refine ⟨?_, ?_, ?_⟩
  · intro tx s e sf h
    have hex : (AddAssets.execute tx s).statuses tx.hash = some (.error e) := by
      unfold AddAssets.execute
      dsimp only
      rw [h]
      simp [Fork.storeStatus]
    unfold AddAssets.process at h
    dsimp only at h
    rcases hm1 : move_coins (s.wallets tx.body.pubKey) (s.wallets s.config.genesisKey)
        (Fees.newAddAssets s tx.body.metaAssets).forTransaction with e1 | p
    · rw [hm1] at h
      injection h with h1 h2
      subst h2
      exact ⟨rfl, rfl, fun k => rfl, fun k _ _ => rfl, hex⟩
    · rw [hm1] at h
      obtain ⟨c1w, g1w⟩ := p
      dsimp only at h
      obtain ⟨ha1, ha2, -, -⟩ := move_coins_ok hm1
      dsimp only at ha1 ha2
      rcases hm2 : move_coins c1w g1w
          (Fees.newAddAssets s tx.body.metaAssets).forAssetsTotal with e2 | p2
      · rw [hm2] at h
        injection h with h1 h2
        subst h2
        refine ⟨rfl, rfl, ?_, ?_, hex⟩
        · intro k
          simp only [Fork.storeWallet]
          by_cases hk1 : k = tx.body.pubKey
          · subst hk1; simp [ha1]
          · by_cases hk2 : k = s.config.genesisKey
            · subst hk2; simp [hk1, ha2]
            · simp [hk1, hk2]
        · intro k hk1 hk2
          simp only [Fork.storeWallet]
          rw [if_neg hk1, if_neg hk2]
      · rw [hm2] at h
        obtain ⟨c2w, g2w⟩ := p2
        dsimp only at h
        obtain ⟨hb1, hb2, -, -⟩ := move_coins_ok hm2
        dsimp only at hb1 hb2
        split at h
        · injection h with h1 h2
          subst h2
          refine ⟨rfl, rfl, ?_, ?_, hex⟩
          · intro k
            simp only [Fork.storeWallet]
            by_cases hk1 : k = tx.body.pubKey
            · subst hk1; simp [hb1, ha1]
            · by_cases hk2 : k = s.config.genesisKey
              · subst hk2; simp [hk1, hb2, ha2]
              · simp [hk1, hk2]
          · intro k hk1 hk2
            simp only [Fork.storeWallet]
            rw [if_neg hk1, if_neg hk2, if_neg hk1, if_neg hk2]
        · injection h with h1 h2
          exact absurd h1 (by simp)
  · intro tx s e sf h
    have hex : Exchange.execute tx s = some (sf.storeStatus tx.hash (.error e)) := by
      unfold Exchange.execute
      rw [h]
    obtain ⟨hst, hin, -⟩ := exchange_process_preserves h
    obtain ⟨h4, h5⟩ := exchange_process_error_state h
    exact ⟨hin, hst, h4, h5, hex⟩
  · intro tx s sf h m hm
    unfold AddAssets.process at h
    dsimp only at h
    rcases hm1 : move_coins (s.wallets tx.body.pubKey) (s.wallets s.config.genesisKey)
        (Fees.newAddAssets s tx.body.metaAssets).forTransaction with e1 | p
    · rw [hm1] at h
      exact absurd h (by simp)
    · rw [hm1] at h
      obtain ⟨c1w, g1w⟩ := p
      dsimp only at h
      rcases hm2 : move_coins c1w g1w
          (Fees.newAddAssets s tx.body.metaAssets).forAssetsTotal with e2 | p2
      · rw [hm2] at h
        exact absurd h (by simp)
      · rw [hm2] at h
        obtain ⟨c2w, g2w⟩ := p2
        dsimp only at h
        rcases hexl : AddAssets.extractLoop tx.body.pubKey
            (((s.storeWallet s.config.genesisKey g1w).storeWallet tx.body.pubKey
                c1w).storeWallet s.config.genesisKey g2w |>.storeWallet tx.body.pubKey c2w)
            tx.body.metaAssets with e3 | triples
        · rw [hexl] at h
          exact absurd h (by simp)
        · rw [hexl] at h
          injection h with h1 h2
          subst h2
          rw [creditLoop_infos]
          refine infoLoop_mem_isSome triples _ _ ?_
          rw [extractLoop_ids hexl]
          exact List.mem_map_of_mem _ hm

/-- A fork whose wallet 1 (the issuer below) holds 5 coins — enough for the
flat add-assets fee of 4 but not for the additional per-asset fee of 3. -/
def sAA : Fork :=
  { wallets := fun k => if k = 1 then { balance := 5, assets := [] } else { balance := 0, assets := [] },
    infos := fun _ => none, statuses := fun _ => none, config := cfgA }

def metaAA : MetaAsset := { data := "X", amount := 10, receiver := 2, fees := 0 }

def bodyAA : AddAssetsBody := { pubKey := 1, metaAssets := [metaAA], seed := 0 }

/-- An `AddAssets` transaction issuing one asset, hash 77. -/
def txAA : AddAssets := { body := bodyAA, envelopeSig := (bodyAA, 1), hash := 77 }

/-- C1 counterexample: on this fork the issuer can pay the flat fee (stored to
the fork) but not the per-asset fee, so `process` returns an error — yet
after `execute` the issuer's balance has dropped from 5 to 1 and the
genesis wallet holds 4: the fork is NOT unchanged outside the status
record, and the fee was debited although the batch never succeeded. -/
theorem c1_atomicity_counterexample :
    (AddAssets.process txAA sAA).1 = .error .insufficientFunds
    ∧ ((AddAssets.execute txAA sAA).wallets 1).balance = 1
    ∧ ((AddAssets.execute txAA sAA).wallets 0).balance = 4
    ∧ (sAA.wallets 1).balance = 5
    ∧ (sAA.wallets 0).balance = 0
    ∧ (AddAssets.execute txAA sAA).statuses txAA.hash
        = some (.error .insufficientFunds) := by
  refine ⟨by decide, by decide, by decide, by decide, by decide, by decide⟩

theorem c1_atomicity_witness :
    ((sAA.storeWallet 0 { balance := 4, assets := [] }).storeWallet 1
        { balance := 1, assets := [] }).infos = sAA.infos
    ∧ ((sAA.storeWallet 0 { balance := 4, assets := [] }).storeWallet 1
        { balance := 1, assets := [] }).wallets 7 = sAA.wallets 7
    ∧ (AddAssets.execute txAA sAA).statuses txAA.hash = some (.error .insufficientFunds) := by
  have h := c1_atomicity.1 txAA sAA .insufficientFunds
      ((sAA.storeWallet 0 { balance := 4, assets := [] }).storeWallet 1
        { balance := 1, assets := [] }) rfl
  exact ⟨h.1, h.2.2.2.1 7 (by decide) (by decide), h.2.2.2.2⟩

/-- C2 (amended): for every `AddAssets` transaction, and for every `Exchange`
transaction whose processing step completes (valid fee-strategy byte),
`execute` writes exactly one status record, keyed by the transaction hash,
holding the processing result; all other status keys are untouched. -/
theorem c2_status_record :
    (∀ (tx : AddAssets) (s : Fork),
      (AddAssets.execute tx s).statuses tx.hash = some (AddAssets.process tx s).1
      ∧ ∀ h, h ≠ tx.hash → (AddAssets.execute tx s).statuses h = s.statuses h)
    ∧ (∀ (tx : Exchange) (s : Fork) (r : Except TxError Unit) (s1 : Fork),
      Exchange.process tx s = some (r, s1) →
      Exchange.execute tx s = some (s1.storeStatus tx.hash r)
      ∧ (s1.storeStatus tx.hash r).statuses tx.hash = some r
      ∧ ∀ h, h ≠ tx.hash → (s1.storeStatus tx.hash r).statuses h = s.statuses h) := by
  constructor
  · intro tx s
    constructor
    · unfold AddAssets.execute
      simp [Fork.storeStatus]
    · intro h hne
      unfold AddAssets.execute
      dsimp only
      simp only [Fork.storeStatus]
      rw [if_neg hne]
      rw [addAssets_process_statuses]
  · intro tx s r s1 h
    refine ⟨?_, ?_, ?_⟩
    · unfold Exchange.execute
      rw [h]
    · simp [Fork.storeStatus]
    · intro h2 hne
      simp only [Fork.storeStatus]
      rw [if_neg hne]
      rw [(exchange_process_preserves h).1]

/-- C2 counterexample: an `Exchange` whose fee-strategy byte is 0 makes
`execute` panic inside the processing step (`expect` on the strategy
decode), so no status record at all is written — `execute` does not
"always write exactly one status record". -/
theorem c2_status_record_counterexample : Exchange.execute exBad sEx = none := rfl

theorem c2_status_record_witness :
    (AddAssets.execute txAA sAA).statuses txAA.hash = some (AddAssets.process txAA sAA).1
    ∧ (AddAssets.execute txAA sAA).statuses 99 = sAA.statuses 99
    ∧ Exchange.execute exC1 sEx
        = some (((sEx.storeWallet 1 { balance := 6, assets := [] }).storeWallet 0
                  { balance := 4, assets := [] }).storeStatus exC1.hash (.error .assetNotFound))
    ∧ (((sEx.storeWallet 1 { balance := 6, assets := [] }).storeWallet 0
          { balance := 4, assets := [] }).storeStatus exC1.hash
            (.error .assetNotFound)).statuses exC1.hash = some (.error .assetNotFound) := by
  have hp : Exchange.process exC1 sEx
      = some (.error .assetNotFound,
          (sEx.storeWallet 1 { balance := 6, assets := [] }).storeWallet 0
            { balance := 4, assets := [] }) := rfl
  have h2 := c2_status_record.2 exC1 sEx _ _ hp
  exact ⟨(c2_status_record.1 txAA sAA).1, (c2_status_record.1 txAA sAA).2 99 (by decide),
         h2.1, h2.2.1⟩

/-- An `ExchangeIntermediary` transaction (contents irrelevant: its entry
points panic unconditionally). -/
def offI : ExchangeOfferIntermediary :=
  { intermediary := { wallet := 3, commission := 1 }, sender := 1, senderAssets := [],
    senderValue := 0, recipient := 2, recipientAssets := [], feeStrategy := 4 }

def txI : ExchangeIntermediary :=
  { offer := offI, seed := 0, senderSignature := (offI, 1),
    intermediarySignature := (offI, 3), dataInfo := "", hash := 60 }

/-- C9 (amended): `AddAssets.verify`/`AddAssets.execute` terminate normally on
every input and `execute` always records a status; `Exchange.execute`
terminates and records a status whenever the fee-strategy byte decodes, but
both `Exchange.verify` and `Exchange.execute` panic on an undecodable
byte; and `ExchangeIntermediary`'s `verify` and `execute` are
`unimplemented!()` — they panic on every input and never write a status. -/
theorem c9_termination :
    (∀ (tx : AddAssets) (s : Fork),
      (AddAssets.execute tx s).statuses tx.hash = some (AddAssets.process tx s).1)
    ∧ (∀ (tx : Exchange) (s : Fork),
      (FeeStrategy.tryFrom tx.body.offer.feeStrategy).isSome →
      (Exchange.execute tx s).isSome)
    ∧ (∀ tx : Exchange, FeeStrategy.tryFrom tx.body.offer.feeStrategy = none →
      Exchange.verify tx = none ∧ ∀ s, Exchange.execute tx s = none)
    ∧ (∀ tx : ExchangeIntermediary,
      ExchangeIntermediary.verify tx = none ∧ ∀ s, ExchangeIntermediary.execute tx s = none) := by
  refine ⟨?_, ?_, ?_, ?_⟩
  · intro tx s
    unfold AddAssets.execute
    simp [Fork.storeStatus]
  · intro tx s hsome
    rcases hp : Exchange.process tx s with - | p
    · exfalso
      unfold Exchange.process at hp
      dsimp only at hp
      rcases htf : FeeStrategy.tryFrom tx.body.offer.feeStrategy with - | fs
      · rw [htf] at hsome
        exact absurd hsome (by simp)
      · rw [htf] at hp
        exact absurd hp (by simp)
    · unfold Exchange.execute
      rw [hp]
      obtain ⟨r, s1⟩ := p
      simp
  · intro tx htf
    constructor
    · unfold Exchange.verify
      dsimp only
      rw [htf]
    · intro s
      unfold Exchange.execute Exchange.process
      dsimp only
      rw [htf]
  · intro tx
    exact ⟨rfl, fun s => rfl⟩

/-- C9 counterexample: `ExchangeIntermediary::verify` and
`ExchangeIntermediary::execute` are `unimplemented!()` — on this concrete
transaction both panic (`none`) instead of completing and writing a status
record. -/
theorem c9_termination_counterexample :
    ExchangeIntermediary.verify txI = none
    ∧ ExchangeIntermediary.execute txI sEx = none := ⟨rfl, rfl⟩

theorem c9_termination_witness :
    (AddAssets.execute txAA sAA).statuses txAA.hash = some (AddAssets.process txAA sAA).1
    ∧ (Exchange.execute exC1 sEx).isSome = true
    ∧ Exchange.verify exBad = none
    ∧ Exchange.execute exBad sPoor = none
    ∧ ExchangeIntermediary.execute txI sPoor = none := by
  refine ⟨c9_termination.1 txAA sAA, c9_termination.2.1 exC1 sEx (by decide), ?_, ?_, ?_⟩
  · exact (c9_termination.2.2.1 exBad rfl).1
  · exact (c9_termination.2.2.1 exBad rfl).2 sPoor
  · exact (c9_termination.2.2.2 txI).2 sPoor

/-- A fork whose wallet 1 (the issuer below) holds 100 coins. -/
def sIss : Fork :=
  { wallets := fun k => if k = 1 then { balance := 100, assets := [] } else { balance := 0, assets := [] },
    infos := fun _ => none, statuses := fun _ => none, config := cfgA }

def metaW : MetaAsset := { data := "X", amount := 10, receiver := 2, fees := 0 }

def metaW2 : MetaAsset := { data := "X", amount := 5, receiver := 3, fees := 0 }

def metaW3 : MetaAsset := { data := "X", amount := 7, receiver := 2, fees := 0 }

def bIss1 : AddAssetsBody := { pubKey := 1, metaAssets := [metaW], seed := 0 }

def bIss2 : AddAssetsBody := { pubKey := 1, metaAssets := [metaW2], seed := 1 }

def bIss3 : AddAssetsBody := { pubKey := 1, metaAssets := [metaW3], seed := 2 }

/-- Creator 1 issues data "X" amount 10 to receiver wallet 2. -/
def txIss1 : AddAssets := { body := bIss1, envelopeSig := (bIss1, 1), hash := 10 }

/-- Creator 1 re-issues the same data "X" amount 5 to receiver wallet 3. -/
def txIss2 : AddAssets := { body := bIss2, envelopeSig := (bIss2, 1), hash := 11 }

/-- Creator 1 re-issues the same data "X" amount 7 to receiver wallet 2. -/
def txIss3 : AddAssets := { body := bIss3, envelopeSig := (bIss3, 1), hash := 12 }

def sIss1 : Fork := AddAssets.execute txIss1 sIss

def sIss2 : Fork := AddAssets.execute txIss2 sIss1

/-- C3 counterexample: the same creator re-issues the same data string "X" to
a DIFFERENT receiver, and instead of the claimed single identifier with a
merged registry total of 15, the code derives the id from the RECEIVER key:
two distinct identifiers with separate totals 10 and 5 exist, and no entry
exists under the identifier derived from the creator's key. -/
theorem c3_counterexample :
    sIss2.infos (AssetId.from_data "X" 2) = some { creator := 1, amount := 10, fees := 0 }
    ∧ sIss2.infos (AssetId.from_data "X" 3) = some { creator := 1, amount := 5, fees := 0 }
    ∧ AssetId.from_data "X" 2 ≠ AssetId.from_data "X" 3
    ∧ sIss2.infos (AssetId.from_data "X" 1) = none := by
  refine ⟨by decide, by decide, by decide, by decide⟩

def tripleW : Nat × AssetBundle × AssetInfo :=
  (2, { id := AssetId.from_data "X" 2, amount := 10 }, { creator := 1, amount := 10, fees := 0 })

/-- C3 (amended): `AddAssets` derives each issued asset's identifier from the
RECEIVER's public key and the data string; re-issuing the same data to the
same receiver merges the existing registry entry (total 10 becomes 17 and
the receiver's holding follows), while a different receiver yields a
distinct identifier and a separate entry. -/
theorem c3_receiver_keyed_ids :
    (∀ (key : Nat) (s : Fork) (metas : List MetaAsset) (l : List (Nat × AssetBundle × AssetInfo)),
      AddAssets.extractLoop key s metas = .ok l →
      l.map (fun t => t.2.1.id) = metas.map (fun m => AssetId.from_data m.data m.receiver))
    ∧ (AddAssets.execute txIss3 sIss2).infos (AssetId.from_data "X" 2)
        = some { creator := 1, amount := 17, fees := 0 }
    ∧ ((AddAssets.execute txIss3 sIss2).wallets 2).assets
        = [(AssetId.from_data "X" 2, 17)]
    ∧ ((AddAssets.execute txIss3 sIss2).wallets 3).assets
        = [(AssetId.from_data "X" 3, 5)] := by
  refine ⟨fun key s metas l h => extractLoop_ids h, by decide, by decide, by decide⟩

theorem c3_receiver_keyed_ids_witness :
    [tripleW].map (fun t => t.2.1.id) = [metaW].map (fun m => AssetId.from_data m.data m.receiver) :=
  c3_receiver_keyed_ids.1 1 sIss [metaW] [tripleW] rfl

def cfg4 : Config := { genesisKey := 0, exchangeFee := 21, addAssetsFee := 0, perAssetFee := 0 }

/-- A fork with the odd exchange fee 21 where wallets 1 and 2 hold 100 each. -/
def s4 : Fork :=
  { wallets := fun k => if k = 1 ∨ k = 2 then { balance := 100, assets := [] }
               else { balance := 0, assets := [] },
    infos := fun _ => none, statuses := fun _ => none, config := cfg4 }

def off4 : ExchangeOffer :=
  { sender := 1, senderAssets := [], senderValue := 0, recipient := 2,
    recipientAssets := [], feeStrategy := 3 }

def exb4 : ExchangeBody := { offer := off4, seed := 0, senderSignature := (off4, 1), dataInfo := "" }

/-- A split-fee `Exchange` between wallets 1 and 2 with the odd fee 21. -/
def ex4 : Exchange := { body := exb4, envelopeSig := (exb4, 2), hash := 56 }

/-- C4 counterexample: with the odd flat fee 21 and the split strategy, the
claim predicts the sender is debited 21 - 21 / 2 = 11 (balance 89) and the
Treasury credited exactly 21; the code debits BOTH parties 21 / 2 = 10
(balances 90) and credits the Treasury only 20. -/
theorem c4_split_fee_counterexample :
    (Exchange.process ex4 s4).map (fun p => p.1) = some (.ok ())
    ∧ (Exchange.process ex4 s4).map
        (fun p => ((p.2.wallets 1).balance, (p.2.wallets 2).balance, (p.2.wallets 0).balance))
        = some (90, 90, 20)
    ∧ (100 - (21 - 21 / 2) : Nat) = 89
    ∧ (90 : Nat) ≠ 89
    ∧ (20 : Nat) ≠ 0 + 21 := by
  refine ⟨by decide, by decide, by decide, by decide, by decide⟩

theorem c4_split_fee_witness :
    ∃ sf, Exchange.process ex4 s4 = some (.ok (), sf)
      ∧ (sf.wallets ex4.body.offer.sender).balance
          = (s4.wallets ex4.body.offer.sender).balance - s4.config.exchangeFee / 2
      ∧ (sf.wallets ex4.body.offer.recipient).balance
          = (s4.wallets ex4.body.offer.recipient).balance - s4.config.exchangeFee / 2
      ∧ (sf.wallets s4.config.genesisKey).balance
          = (s4.wallets s4.config.genesisKey).balance
            + (s4.config.exchangeFee / 2 + s4.config.exchangeFee / 2) :=
  c4_split_fee ex4 s4 rfl rfl rfl rfl (by decide) (by decide) (by decide) (by decide) (by decide)

theorem hexDigitVal_hexChar : ∀ n < 16, hexDigitVal (hexChar n) = some n := by decide

theorem charWidth_hexChar : ∀ n < 16, charWidth (hexChar n) = 1 := by decide

theorem div16_lt {b : Nat} (h : b < 256) : b / 16 < 16 :=
  (Nat.div_lt_iff_lt_mul (by norm_num)).mpr h

theorem byteLen_encode : ∀ (bs : List Nat), (∀ b ∈ bs, b < 256) →
    byteLen (bs.foldr (fun b acc => hexChar (b / 16) :: hexChar (b % 16) :: acc) [])
      = 2 * bs.length := by
  intro bs
  induction bs with
  | nil => intro _; rfl
  | cons b rest ih =>
    intro h
    have hb : b < 256 := h b (List.mem_cons_self b rest)
    simp only [List.foldr, byteLen]
    rw [charWidth_hexChar _ (div16_lt hb), charWidth_hexChar _ (Nat.mod_lt _ (by norm_num)),
        ih (fun x hx => h x (List.mem_cons_of_mem b hx))]
    simp only [List.length_cons]
    ring

theorem findNonHex_encode : ∀ (bs : List Nat), (∀ b ∈ bs, b < 256) → ∀ i,
    findNonHex (bs.foldr (fun b acc => hexChar (b / 16) :: hexChar (b % 16) :: acc) []) i
      = none := by
  intro bs
  induction bs with
  | nil => intro _ i; rfl
  | cons b rest ih =>
    intro h i
    have hb : b < 256 := h b (List.mem_cons_self b rest)
    simp only [List.foldr, findNonHex]
    rw [hexDigitVal_hexChar _ (div16_lt hb)]
    simp only [Option.isSome_some, if_pos]
    rw [hexDigitVal_hexChar _ (Nat.mod_lt _ (by norm_num))]
    simp only [Option.isSome_some, if_pos]
    exact ih (fun x hx => h x (List.mem_cons_of_mem b hx)) (i + 1 + 1)

theorem parsePairs_encode : ∀ (bs : List Nat), (∀ b ∈ bs, b < 256) → ∀ off,
    parsePairs (bs.foldr (fun b acc => hexChar (b / 16) :: hexChar (b % 16) :: acc) []) off
      = .ok bs := by
  intro bs
  induction bs with
  | nil => intro _ off; rfl
  | cons b rest ih =>
    intro h off
    have hb : b < 256 := h b (List.mem_cons_self b rest)
    simp only [List.foldr, parsePairs]
    rw [hexDigitVal_hexChar _ (div16_lt hb), hexDigitVal_hexChar _ (Nat.mod_lt _ (by norm_num))]
    dsimp only
    rw [ih (fun x hx => h x (List.mem_cons_of_mem b hx)) (off + 2)]
    dsimp only
    rw [Nat.mul_comm, Nat.div_add_mod b 16]

/-- C10 (amended): `AssetID::from_str` inverts `AssetID::to_string`, and it is
total with the error discipline of the source: every input whose UTF-8 BYTE
length (not character count) differs from 32 yields `InvalidLength` with
that byte length, and on a 32-byte input the first non-hexadecimal
character (by character index) yields `InvalidCharacter`; the last
conjunct characterises the scan that finds it. -/
theorem c10_from_str_to_string :
    (∀ a : AssetID, a.bytes.length = 16 → (∀ b ∈ a.bytes, b < 256) →
      AssetID.from_str (AssetID.to_string a) = .ok a)
    ∧ (∀ us : List Char, byteLen us ≠ 32 →
      AssetID.from_str us = .error (.invalidLength (byteLen us)))
    ∧ (∀ (us : List Char) (c : Char) (i : Nat), byteLen us = 32 →
      findNonHex us 0 = some (c, i) →
      AssetID.from_str us = .error (.invalidCharacter c i))
    ∧ (∀ (us : List Char) (i : Nat),
      findNonHex us i = none ↔ ∀ c ∈ us, (hexDigitVal c).isSome) := by
  refine ⟨?_, ?_, ?_, ?_⟩
  · intro a h16 hlt
    unfold AssetID.from_str AssetID.to_string
    have hbl : byteLen (a.bytes.foldr
        (fun b acc => hexChar (b / 16) :: hexChar (b % 16) :: acc) []) = 32 := by
      rw [byteLen_encode a.bytes hlt, h16]
    rw [if_neg (not_not_intro hbl)]
    rw [findNonHex_encode a.bytes hlt 0]
    dsimp only
    rw [parsePairs_encode a.bytes hlt 0]
    dsimp only
    unfold AssetID.from_bytes
    rw [if_neg (not_not_intro h16)]
  · intro us h
    unfold AssetID.from_str
    rw [if_pos h]
  · intro us c i h32 hfind
    unfold AssetID.from_str
    rw [if_neg (not_not_intro h32), hfind]
  · intro us
    induction us with
    | nil => intro i; simp [findNonHex]
    | cons c rest ih =>
      intro i
      by_cases hc : (hexDigitVal c).isSome
      · simp [findNonHex, hc, ih (i + 1)]
      · simp [findNonHex, hc]

/-- The byte vector of the round-trip test in assetid.rs. -/
def aid10 : AssetID :=
  { bytes := [161, 162, 163, 164, 177, 178, 193, 194, 209, 210, 211, 212, 213, 214, 215, 216] }

/-- A 32-CHARACTER input containing a non-hexadecimal character whose UTF-8
byte length is 33: thirty-one ASCII zeros followed by U+00E9. -/
def badStr : List Char := List.replicate 31 (Char.ofNat 48) ++ [Char.ofNat 233]

/-- A 32-byte input with a non-hex character at index 15, as in the
`from_str` unit test of assetid.rs. -/
def percStr : List Char :=
  List.replicate 15 (Char.ofNat 48) ++ [Char.ofNat 37] ++ List.replicate 16 (Char.ofNat 48)

/-- C10 counterexample: this input has exactly 32 CHARACTERS and contains a
non-hexadecimal character, so the claim demands `InvalidCharacter`; but the
code measures the UTF-8 byte length (33) and returns `InvalidLength 33`. -/
theorem c10_counterexample :
    badStr.length = 32
    ∧ (badStr.any fun c => (hexDigitVal c).isNone) = true
    ∧ AssetID.from_str badStr = .error (.invalidLength 33) := by
  refine ⟨by decide, by decide, by decide⟩

theorem c10_from_str_to_string_witness :
    AssetID.from_str (AssetID.to_string aid10) = .ok aid10
    ∧ AssetID.from_str [] = .error (.invalidLength 0)
    ∧ AssetID.from_str percStr = .error (.invalidCharacter (Char.ofNat 37) 15) := by
  refine ⟨c10_from_str_to_string.1 aid10 (by decide) (by decide),
          c10_from_str_to_string.2.1 [] (by decide),
          c10_from_str_to_string.2.2.1 percStr (Char.ofNat 37) 15 (by decide) (by decide)⟩
